import Mathlib

/-!
A shallow embedding of the invoice-report pipeline of `fin_overview.py`
(together with the pieces of `xero_invoice.py` that the specification also
covers), and theorems checking the specification's claims against it.

Conventions used throughout:

* Dates are integer day numbers (one unit = one day), so that Python's
  `(due_date - today).days` becomes integer subtraction.  `days_from_civil`
  converts a calendar date to its day number (proleptic Gregorian, epoch
  1970-01-01), so the literal `datetime(2025, 11, 11)` of the source has a
  faithful counterpart.
* pandas/numpy `NaN` and `NaT` cells are modelled as `none : Option _`.
  Python's builtin `sum` propagates `NaN` (`pySum` below), while pandas'
  `Series.sum()` skips `NaN` (`pdSum` below); both appear in the source.
* Monetary amounts are rationals (`ℚ`), the exact idealisation of the
  floats the script manipulates; no claim depends on float rounding.
* The spreadsheet sink is modelled as the sequence of content rows the code
  appends below the header row (`OutRow`); purely visual styling, merged
  cells and the supplementary chart summary are out of scope of the claims.
-/

/-- Day number of a proleptic-Gregorian calendar date, epoch 1970-01-01
(the standard `days_from_civil` computation). -/
def days_from_civil (y m d : Int) : Int :=
  let yAdj : Int := if m ≤ 2 then y - 1 else y
  let era : Int := Int.fdiv yAdj 400
  let yoe : Int := yAdj - era * 400
  let mp : Int := Int.emod (m + 9) 12
  let doy : Int := Int.fdiv (153 * mp + 2) 5 + d - 1
  let doe : Int := yoe * 365 + Int.fdiv yoe 4 - Int.fdiv yoe 100 + doy
  era * 146097 + doe - 719468

/-- `fin_overview.calculate_status` (fin_overview.py lines 19-33): the
status label and highlight colour computed from a possibly-missing due date
and the reference date `today`. -/
def calculate_status (due_date : Option Int) (today : Int) : String × Option String :=
  match due_date with
  | none => ("No Due Date", none)
  | some dd =>
    let days_diff := dd - today
    if days_diff < 0 then ("Overdue", some "red")
    else if days_diff ≤ 7 then
      ((if days_diff > 0 then "Due in " ++ toString days_diff ++ " days" else "Due Today"),
        some "yellow")
    else if days_diff ≤ 60 then ("Due in " ++ toString days_diff ++ " days", some "green")
    else ("Due in " ++ toString days_diff ++ " days", none)

/-- The severity tiers named by the specification.  The glossary ties each
tier to the highlight colour the code uses: red marks `Overdue`, yellow
marks `DueSoon`, green marks `DueLater`. -/
inductive Severity
  | overdue
  | dueSoon
  | dueLater
deriving DecidableEq

/-- The specification's severity tier carried by a highlight colour. -/
def severity_of_color : Option String → Option Severity
  | some "red" => some .overdue
  | some "yellow" => some .dueSoon
  | some "green" => some .dueLater
  | _ => none

/-- `xero_invoice.InvoiceProcessor.calculate_status` (xero_invoice.py lines
93-109): the label-only status of the second script. -/
def xero_calculate_status (due_date : Option Int) (today : Int) : String :=
  match due_date with
  | none => ""
  | some dd =>
    let delta := dd - today
    if delta = 0 then "Due today"
    else if delta > 0 then
      "Due in " ++ toString delta ++ " " ++ (if delta = 1 then "day" else "days")
    else
      "Overdue by " ++ toString delta.natAbs ++ " " ++
        (if delta.natAbs = 1 then "day" else "days")

/-- A canonical invoice record (specification section 3): one row of the
dataframe after normalisation and coercion.  Per the canonical data model
`customer` and `currency` are strings, `due_date` and `total` are nullable,
`paid` is always a number. -/
structure Record where
  customer : String
  invoiceId : String
  dueDate : Option Int
  total : Option ℚ
  paid : ℚ
  currency : String
deriving DecidableEq

/-- One row of the per-currency dataframe built by `process_currency_data`:
the record plus the derived `Balance`, `Status` and `Color` columns. -/
structure AnnRow where
  customer : String
  invoiceId : String
  dueDate : Option Int
  total : Option ℚ
  paid : ℚ
  currency : String
  balance : Option ℚ
  status : String
  color : Option String
deriving DecidableEq

/-- Adding the derived columns (fin_overview.py lines 47-52):
`Balance = Total - Paid` with `NaN` propagating from a null `Total`, and
`(Status, Color) = calculate_status(Due Date, today)`. -/
def annotate (today : Int) (r : Record) : AnnRow :=
  { customer := r.customer
    invoiceId := r.invoiceId
    dueDate := r.dueDate
    total := r.total
    paid := r.paid
    currency := r.currency
    balance := r.total.map (fun t => t - r.paid)
    status := (calculate_status r.dueDate today).1
    color := (calculate_status r.dueDate today).2 }

/-- The record a processed row came from (dropping the derived columns). -/
def AnnRow.toRecord (r : AnnRow) : Record :=
  { customer := r.customer, invoiceId := r.invoiceId, dueDate := r.dueDate,
    total := r.total, paid := r.paid, currency := r.currency }

/-- `currency_df.sort_values('Customer')` (fin_overview.py line 44), as a
merge sort by the customer key.  pandas' default sort promises the sorted
order of the key only; whether ties keep their input order is exactly what
claim C4 asserts, and is not decided by this model (see C4). -/
def sortByCustomer (l : List Record) : List Record :=
  l.mergeSort (fun a b => a.customer ≤ b.customer)

/-- `process_currency_data` (fin_overview.py lines 35-54): filter one
currency, sort by customer, add the `Balance`/`Status`/`Color` columns;
`None` when no row matches the currency. -/
def process_currency_data (df : List Record) (currency : String) (today : Int) :
    Option (List AnnRow) :=
  if df.filter (fun r => r.currency = currency) = [] then none
  else some ((sortByCustomer (df.filter (fun r => r.currency = currency))).map (annotate today))

/-- Python's builtin `sum` over a list of float cells (fin_overview.py
lines 107 and 173): a `NaN` (`none`) entry propagates into the result. -/
def pySum : List (Option ℚ) → Option ℚ
  | [] => some 0
  | x :: xs => x.bind (fun a => (pySum xs).map (fun b => a + b))

/-- pandas `Series.sum()` over a float column (fin_overview.py line 184):
`NaN` entries are skipped (`skipna=True` is the default), so an empty or
all-`NaN` column sums to `0`. -/
def pdSum (l : List (Option ℚ)) : ℚ :=
  (l.filterMap id).sum

/-- One appended spreadsheet row of `write_to_excel`, keeping the cell
content the claims talk about; styling, number formats and the
supplementary chart summary (written by separate cell writes) are out of
scope. -/
inductive OutRow
  | data (seq : Nat) (customer invoiceId status : String) (dueDate : Option Int)
      (total : Option ℚ) (paid : ℚ) (balance : Option ℚ)
  | subtotal (customer : String) (amount : Option ℚ)
  | blank
  | grandTotal (currency : String) (amount : ℚ)
deriving DecidableEq

/-- The data row appended for one invoice (fin_overview.py lines 130-140). -/
def dataOf (seq : Nat) (r : AnnRow) : OutRow :=
  .data seq r.customer r.invoiceId r.status r.dueDate r.total r.paid r.balance

/-- Closing a customer group (fin_overview.py lines 104-107 and 171-173): a
subtotal row is appended only when the group holds at least two invoices;
its amount is the Python `sum` of the group's balances. -/
def closeGroup (customer : String) (balances : List (Option ℚ)) : List OutRow :=
  if 2 ≤ balances.length then [.subtotal customer (pySum balances)] else []

/-- The row-emitting loop of `write_to_excel` (fin_overview.py lines
99-181).  The running state is `current_customer` - where `""` plays the
part of Python's falsy `None`, since the guard on line 102 is
`current_customer and current_customer != row['Customer']` - together with
`customer_balances` and the running invoice number `seq`. -/
def writeLoop : List AnnRow → String → List (Option ℚ) → Nat → List OutRow
  | [], current, balances, _ => closeGroup current balances
  | r :: rest, current, balances, seq =>
    if current ≠ "" ∧ current ≠ r.customer then
      closeGroup current balances ++ [.blank] ++ [dataOf seq r] ++
        writeLoop rest r.customer [r.balance] (seq + 1)
    else
      [dataOf seq r] ++ writeLoop rest r.customer (balances ++ [r.balance]) (seq + 1)

/-- `write_to_excel` (fin_overview.py lines 56-203) as the sequence of
content rows appended below the header row: the loop over the invoices
followed by the grand-total row, whose amount is the pandas sum of the
`Balance` column (line 184). -/
def write_to_excel (rows : List AnnRow) (currency : String) : List OutRow :=
  writeLoop rows "" [] 1 ++ [.grandTotal currency (pdSum (rows.map (·.balance)))]

/-- Customer of the first row of a block (`""` for the empty block). -/
def headCustomer : List AnnRow → String
  | [] => ""
  | r :: _ => r.customer

/-- The maximal blocks of consecutive rows sharing one customer. -/
def runsBy : List AnnRow → List (List AnnRow)
  | [] => []
  | r :: rest =>
    match runsBy rest with
    | [] => [[r]]
    | g :: gs => if headCustomer g = r.customer then (r :: g) :: gs else [r] :: g :: gs

/-- The data rows of one block, numbered consecutively from `seq`. -/
def dataRows : Nat → List AnnRow → List OutRow
  | _, [] => []
  | seq, r :: rs => dataOf seq r :: dataRows (seq + 1) rs

/-- Specification-side rendering of the customer blocks: each block is its
data rows followed by its subtotal row exactly when it has two or more
invoices; consecutive blocks are separated by one blank row. -/
def renderGroups : Nat → List (List AnnRow) → List OutRow
  | _, [] => []
  | seq, [g] => dataRows seq g ++ closeGroup (headCustomer g) (g.map (·.balance))
  | seq, g :: g' :: gs =>
    dataRows seq g ++ closeGroup (headCustomer g) (g.map (·.balance)) ++ [.blank] ++
      renderGroups (seq + g.length) (g' :: gs)

/-- The tail `renderGroups` contributes after an open group is closed: a
separating blank row and the remaining blocks, nothing when no block is
left. -/
def renderRest : Nat → List (List AnnRow) → List OutRow
  | _, [] => []
  | seq, g :: gs => .blank :: renderGroups seq (g :: gs)

/-- The grand-total rows of an output fragment, with their currencies. -/
def grand_rows (out : List OutRow) : List (String × ℚ) :=
  out.filterMap (fun o =>
    match o with
    | .grandTotal c a => some (c, a)
    | _ => none)

/-- `pandas.unique` over a column: the distinct values in order of first
appearance. -/
def dedupFirst : List String → List String
  | [] => []
  | c :: rest => c :: (dedupFirst rest).filter (fun x => ¬ x = c)

/-- The non-primary currencies of the input (fin_overview.py line 336):
`df[~df['Currency'].isin(['USD','EUR'])]['Currency'].unique()`. -/
def other_currencies (df : List Record) : List String :=
  dedupFirst ((df.filter (fun r => ¬ (r.currency = "USD" ∨ r.currency = "EUR"))).map
    (·.currency))

/-- The currencies `generate_report` tries, in order (fin_overview.py lines
323-342): `USD`, then `EUR`, then the remaining currencies in order of
first appearance. -/
def section_order (df : List Record) : List String :=
  "USD" :: "EUR" :: other_currencies df

/-- The per-currency subsets `generate_report` actually processes: each
attempted currency paired with its processed rows, skipped when
`process_currency_data` returns `None` (no matching record). -/
def currency_partition (df : List Record) (today : Int) :
    List (String × List AnnRow) :=
  (section_order df).filterMap (fun c =>
    (process_currency_data df c today).map (fun rows => (c, rows)))

/-- The per-currency worksheets of `generate_report` (fin_overview.py lines
323-342): one sheet, written by `write_to_excel`, per currency with a
non-empty record subset. -/
def report_sections (df : List Record) (today : Int) : List (String × List OutRow) :=
  (section_order df).filterMap (fun c =>
    (process_currency_data df c today).map (fun rows => (c, write_to_excel rows c)))

/-- The reference date of `generate_report`: the constant
`datetime(2025, 11, 11)` of fin_overview.py line 316. -/
def reference_today : Int := days_from_civil 2025 11 11

/-- One whole `generate_report` run over already-coerced canonical records,
with the invocation wall-clock time as an explicit argument.  The script
never reads the clock inside the pipeline - its reference date is the
constant of line 316 - so `wallClock` is unused by the body. -/
def generate_report_at (wallClock : Int) (df : List Record) :
    List (String × List OutRow) :=
  report_sections df reference_today

/-- `InvoiceProcessor.__init__` (xero_invoice.py lines 51-52) sets the
reference date to the invocation wall clock: `datetime.now().date()`. -/
def xero_today (wallClock : Int) : Int := wallClock

/-- The status label `xero_invoice` computes for one invoice when the run
starts at wall-clock time `wallClock`. -/
def xero_status_at (wallClock : Int) (due_date : Option Int) : String :=
  xero_calculate_status due_date (xero_today wallClock)

/-- The full alternate-schema (Xero) column set (fin_overview.py lines
263-270). -/
def xero_columns : List String :=
  ["ContactName", "InvoiceNumber", "DueDate", "Total", "InvoiceAmountPaid", "Currency"]

/-- The canonical required columns (fin_overview.py line 292). -/
def required_columns : List String :=
  ["Customer", "Invoice #", "Due Date", "Total", "Paid", "Currency"]

/-- `has_xero_columns` (fin_overview.py line 273): every alternate-schema
column is present in the input header. -/
def has_xero_columns (cols : List String) : Bool :=
  xero_columns.all (fun c => cols.contains c)

/-- The missing canonical columns, in canonical order (fin_overview.py
line 293). -/
def missing_columns (cols : List String) : List String :=
  required_columns.filter (fun c => ! cols.contains c)

/-- The outcome of one `generate_report` run as far as the schema-check
claims reach: whether an output file is written, the process exit status,
and the missing-column list printed on the failure path.  On that path
(fin_overview.py lines 294-299) the function logs, prints the warning and
plain-returns; `__main__` then finishes normally, so the interpreter exits
with status 0 and raises nothing - the source defines no `SchemaError`
class at all. -/
structure RunOutcome where
  outputWritten : Bool
  exitCode : Int
  printedMissing : Option (List String)
deriving DecidableEq

/-- The schema dispatch of `generate_report` (fin_overview.py lines
262-299) together with the run's observable outcome.  Downstream file
handling is out of scope: on the two successful branches the report is
written. -/
def run_generate_report (cols : List String) : RunOutcome :=
  if has_xero_columns cols then
    { outputWritten := true, exitCode := 0, printedMissing := none }
  else if missing_columns cols = [] then
    { outputWritten := true, exitCode := 0, printedMissing := none }
  else
    { outputWritten := false, exitCode := 0, printedMissing := some (missing_columns cols) }

/-- A raw input row after the rename to canonical column names and before
any coercion: every cell apart from the grouping key may be missing
(`NaN`), exactly as `pd.read_csv` delivers empty cells. -/
structure RawRow where
  invoiceId : String
  customer : Option String
  dueDate : Option String
  total : Option String
  paid : Option String
  currency : Option String
deriving DecidableEq

/-- pandas `GroupBy.first`: the first NON-null entry of a column within the
group (`skipna=True` is the default, and the `agg({...: 'first'})` form
cannot turn it off); null only when every entry is null. -/
def firstEntry {α : Type} (cells : List (Option α)) : Option α :=
  (cells.filterMap id).head?

/-- The group keys of `df.groupby('Invoice #')`: the distinct invoice ids
in ascending order (`sort=True` is the pandas default). -/
def groupKeys (rows : List RawRow) : List String :=
  (dedupFirst (rows.map (·.invoiceId))).mergeSort (fun a b => a ≤ b)

/-- The consolidation of the Xero branch (fin_overview.py lines 281-287):
`df.groupby('Invoice #').agg({...: 'first'}).reset_index()` - one output
row per distinct invoice id, each remaining field aggregated by
`GroupBy.first`. -/
def consolidate (rows : List RawRow) : List RawRow :=
  (groupKeys rows).map (fun k =>
    let grp := rows.filter (fun r => r.invoiceId = k)
    { invoiceId := k
      customer := firstEntry (grp.map (·.customer))
      dueDate := firstEntry (grp.map (·.dueDate))
      total := firstEntry (grp.map (·.total))
      paid := firstEntry (grp.map (·.paid))
      currency := firstEntry (grp.map (·.currency)) })

/-- A record after the coercions of fin_overview.py lines 303-313 (still
before currency partitioning); `Paid` can no longer be null. -/
structure CoercedRow where
  invoiceId : String
  customer : Option String
  dueDate : Option Int
  total : Option ℚ
  paid : ℚ
  currency : Option String
deriving DecidableEq

/-- The field coercions of `generate_report` (fin_overview.py lines
303-313), parametric in the cell parsers: `pd.to_datetime(.., errors
='coerce')` and `pd.to_numeric(.., errors='coerce')` turn an unparsable
cell into `NaN` and keep an absent cell `NaN`; `df['Paid'].fillna(0)` then
replaces a null `Paid` by `0`. -/
def coerce_row (parseDate : String → Option Int) (parseNum : String → Option ℚ)
    (r : RawRow) : CoercedRow :=
  { invoiceId := r.invoiceId
    customer := r.customer
    dueDate := r.dueDate.bind parseDate
    total := r.total.bind parseNum
    paid := (r.paid.bind parseNum).getD 0
    currency := r.currency }

/-- A raw line-item row of invoice `INV1` whose `Total` cell is empty. -/
def exRawDup1 : RawRow :=
  { invoiceId := "INV1", customer := some "Acme", dueDate := none,
    total := none, paid := none, currency := some "USD" }

/-- A second raw line-item row of the same invoice `INV1`, carrying a
`Total` value. -/
def exRawDup2 : RawRow :=
  { invoiceId := "INV1", customer := some "Acme", dueDate := none,
    total := some "100", paid := none, currency := some "USD" }

/-- A lone raw row, for the consolidation witness. -/
def exRawSingle : RawRow :=
  { invoiceId := "INV9", customer := some "Bolt", dueDate := none,
    total := none, paid := none, currency := none }

/-- A raw row whose `Due Date` and `Total` cells are unparsable and whose
`Paid` cell is absent, for the coercion witness. -/
def exRawBad : RawRow :=
  { invoiceId := "INV5", customer := some "Acme", dueDate := some "garbage",
    total := some "abc", paid := none, currency := some "USD" }

/-- A concrete USD record with null `Total`, for witnesses. -/
def exRecU : Record :=
  { customer := "Acme", invoiceId := "I1", dueDate := none, total := none,
    paid := 0, currency := "USD" }

/-- A concrete GBP record with null `Total`, for witnesses. -/
def exRecG : Record :=
  { customer := "Bolt", invoiceId := "I2", dueDate := none, total := none,
    paid := 0, currency := "GBP" }

/-- A concrete two-currency record set, for witnesses. -/
def exDf : List Record := [exRecU, exRecG]

/-- A processed row of customer `Acme` whose `Total` is null, so its
balance is null (`NaN`); used on concrete inputs below. -/
def exRowA1 : AnnRow :=
  { customer := "Acme", invoiceId := "INV1", dueDate := none, total := none,
    paid := 0, currency := "USD", balance := none, status := "No Due Date",
    color := none }

/-- A second processed row of customer `Acme` with balance `5`. -/
def exRowA2 : AnnRow :=
  { customer := "Acme", invoiceId := "INV2", dueDate := none, total := some 5,
    paid := 0, currency := "USD", balance := some 5, status := "No Due Date",
    color := none }

theorem runsBy_flatten (l : List AnnRow) : (runsBy l).flatten = l := by
  induction l with
  | nil => rfl
  | cons r rest ih =>
    cases h : runsBy rest with
    | nil =>
      rw [h] at ih
      simp only [List.flatten_nil] at ih
      simp only [runsBy, h]
      simp [← ih]
    | cons g gs =>
      rw [h] at ih
      simp only [runsBy, h]
      by_cases hc : headCustomer g = r.customer
      · rw [if_pos hc]
        simp only [List.flatten_cons, List.cons_append] at ih ⊢
        rw [ih]
      · rw [if_neg hc]
        simp only [List.flatten_cons, List.singleton_append] at ih ⊢
        rw [ih]

theorem runsBy_ne_nil (l : List AnnRow) : ∀ g ∈ runsBy l, g ≠ [] := by
  induction l with
  | nil => simp [runsBy]
  | cons r rest ih =>
    cases h : runsBy rest with
    | nil => simp [runsBy, h]
    | cons g0 gs =>
      rw [h] at ih
      simp only [runsBy, h]
      by_cases hc : headCustomer g0 = r.customer
      · rw [if_pos hc]
        intro g hg
        rcases List.mem_cons.mp hg with rfl | hg'
        · simp
        · exact ih g (List.mem_cons.mpr (Or.inr hg'))
      · rw [if_neg hc]
        intro g hg
        rcases List.mem_cons.mp hg with rfl | hg'
        · simp
        · exact ih g hg'

theorem runsBy_uniform (l : List AnnRow) :
    ∀ g ∈ runsBy l, ∀ x ∈ g, x.customer = headCustomer g := by
  induction l with
  | nil => simp [runsBy]
  | cons r rest ih =>
    cases h : runsBy rest with
    | nil =>
      simp only [runsBy, h]
      intro g hg x hx
      simp only [List.mem_singleton] at hg
      subst hg
      simp only [List.mem_singleton] at hx
      subst hx
      rfl
    | cons g0 gs =>
      rw [h] at ih
      simp only [runsBy, h]
      by_cases hc : headCustomer g0 = r.customer
      · rw [if_pos hc]
        intro g hg x hx
        rcases List.mem_cons.mp hg with rfl | hg'
        · rcases List.mem_cons.mp hx with rfl | hx0
          · rfl
          · have hx1 := ih g0 (List.mem_cons_self g0 gs) x hx0
            rw [hx1, hc]
            rfl
        · exact ih g (List.mem_cons.mpr (Or.inr hg')) x hx
      · rw [if_neg hc]
        intro g hg x hx
        rcases List.mem_cons.mp hg with rfl | hg'
        · simp only [List.mem_singleton] at hx
          subst hx
          rfl
        · exact ih g hg' x hx

theorem runsBy_chain' (l : List AnnRow) :
    List.Chain' (fun a b => headCustomer a ≠ headCustomer b) (runsBy l) := by
  induction l with
  | nil => simp [runsBy]
  | cons r rest ih =>
    cases h : runsBy rest with
    | nil => simp [runsBy, h]
    | cons g0 gs =>
      rw [h] at ih
      simp only [runsBy, h]
      by_cases hc : headCustomer g0 = r.customer
      · rw [if_pos hc]
        cases gs with
        | nil => simp
        | cons g1 gs' =>
          rw [List.chain'_cons] at ih ⊢
          refine ⟨?_, ih.2⟩
          have he : headCustomer (r :: g0) = headCustomer g0 := hc.symm
          rw [he]
          exact ih.1
      · rw [if_neg hc]
        rw [List.chain'_cons]
        exact ⟨fun hh => hc hh.symm, ih⟩

theorem writeLoop_consume (g rest : List AnnRow) (current : String)
    (balances : List (Option ℚ)) (seq : Nat)
    (hg : ∀ r ∈ g, r.customer = current) :
    writeLoop (g ++ rest) current balances seq =
      dataRows seq g ++
        writeLoop rest current (balances ++ g.map (·.balance)) (seq + g.length) := by
  induction g generalizing balances seq with
  | nil => simp [dataRows]
  | cons r g ih =>
    have hr : r.customer = current := hg r (List.mem_cons_self r g)
    simp only [List.cons_append, writeLoop]
    rw [if_neg (by simp [hr])]
    rw [hr]
    simp only [List.append_eq]
    rw [ih _ _ (fun x hx => hg x (List.mem_cons.mpr (Or.inr hx)))]
    simp only [dataRows, List.map_cons, List.length_cons, List.singleton_append,
      List.cons_append, List.append_assoc]
    have hseq : seq + 1 + g.length = seq + (g.length + 1) := by omega
    rw [hseq]
    rfl

theorem writeLoop_runs (gs : List (List AnnRow)) (current : String)
    (balances : List (Option ℚ)) (seq : Nat)
    (hne : ∀ g ∈ gs, g ≠ [])
    (huni : ∀ g ∈ gs, ∀ x ∈ g, x.customer = headCustomer g)
    (hnb : ∀ g ∈ gs, headCustomer g ≠ "")
    (hch : List.Chain' (fun a b => headCustomer a ≠ headCustomer b) gs)
    (hcur : current ≠ "")
    (hhd : ∀ g ∈ gs.head?, headCustomer g ≠ current) :
    writeLoop gs.flatten current balances seq =
      closeGroup current balances ++ renderRest seq gs := by
  induction gs generalizing current balances seq with
  | nil => simp [writeLoop, renderRest]
  | cons g gs ih =>
    obtain ⟨r, g', rfl⟩ : ∃ r g', g = r :: g' := by
      cases g with
      | nil => exact absurd rfl (hne [] (List.mem_cons_self [] gs))
      | cons a b => exact ⟨a, b, rfl⟩
    have hhc : r.customer ≠ current := hhd (r :: g') (by simp)
    simp only [List.flatten_cons, List.cons_append, writeLoop]
    rw [if_pos ⟨hcur, fun hh => hhc hh.symm⟩]
    have hg' : ∀ x ∈ g', x.customer = r.customer := by
      intro x hx
      exact huni (r :: g') (List.mem_cons_self _ gs) x (List.mem_cons.mpr (Or.inr hx))
    simp only [List.append_eq]
    rw [writeLoop_consume g' gs.flatten r.customer [r.balance] (seq + 1) hg']
    have hrne : r.customer ≠ "" := hnb (r :: g') (List.mem_cons_self _ gs)
    have hch' : List.Chain' (fun a b => headCustomer a ≠ headCustomer b) gs :=
      hch.tail
    have hhd' : ∀ g2 ∈ gs.head?, headCustomer g2 ≠ r.customer := by
      intro g2 hg2
      have := List.chain'_cons'.mp hch
      exact fun hh => (this.1 g2 hg2) (by simpa [headCustomer] using hh.symm)
    rw [ih r.customer ([r.balance] ++ List.map (fun x => x.balance) g') (seq + 1 + g'.length)
      (fun g hg => hne g (List.mem_cons.mpr (Or.inr hg)))
      (fun g hg => huni g (List.mem_cons.mpr (Or.inr hg)))
      (fun g hg => hnb g (List.mem_cons.mpr (Or.inr hg)))
      hch' hrne hhd']
    have hbal : [r.balance] ++ List.map (fun x : AnnRow => x.balance) g' =
        List.map (fun x : AnnRow => x.balance) (r :: g') := by
      simp
    have hlen : seq + 1 + g'.length = seq + (r :: g').length := by
      simp only [List.length_cons]
      omega
    rw [hbal, hlen]
    cases gs with
    | nil =>
      simp only [renderRest, renderGroups, dataRows]
      simp [headCustomer, List.append_assoc]
    | cons g2 gs2 =>
      simp only [renderRest, renderGroups, dataRows]
      simp [headCustomer, List.append_assoc]

theorem writeLoop_fresh (l : List AnnRow) (seq : Nat)
    (hcust : ∀ r ∈ l, r.customer ≠ "") :
    writeLoop l "" [] seq = renderGroups seq (runsBy l) := by
  cases hl : runsBy l with
  | nil =>
    have : l = [] := by
      have h := runsBy_flatten l
      rw [hl] at h
      simpa using h.symm
    subst this
    rfl
  | cons g gs =>
    have hflat := runsBy_flatten l
    rw [hl] at hflat
    have hgmem : g ∈ runsBy l := by rw [hl]; exact List.mem_cons_self g gs
    obtain ⟨r, g', rfl⟩ : ∃ r g', g = r :: g' := by
      cases g with
      | nil => exact absurd rfl (runsBy_ne_nil l [] hgmem)
      | cons a b => exact ⟨a, b, rfl⟩
    -- l = r :: (g' ++ gs.flatten)
    have hl' : l = r :: (g' ++ gs.flatten) := by
      rw [← hflat]
      simp
    have hmem_of_run : ∀ g2 ∈ runsBy l, ∀ x ∈ g2, x ∈ l := by
      intro g2 hg2 x hx
      rw [← runsBy_flatten l]
      exact List.mem_flatten.mpr ⟨g2, hg2, hx⟩
    have hrne : r.customer ≠ "" := by
      refine hcust r ?_
      rw [hl']
      exact List.mem_cons_self _ _
    have hg' : ∀ x ∈ g', x.customer = r.customer := by
      intro x hx
      exact runsBy_uniform l (r :: g') hgmem x (List.mem_cons.mpr (Or.inr hx))
    have hch := runsBy_chain' l
    rw [hl] at hch
    conv_lhs => rw [hl']
    simp only [writeLoop]
    rw [if_neg (by simp)]
    simp only [List.nil_append]
    rw [writeLoop_consume g' gs.flatten r.customer [r.balance] (seq + 1) hg']
    rw [writeLoop_runs gs r.customer ([r.balance] ++ List.map (fun x => x.balance) g')
      (seq + 1 + g'.length)
      (fun g2 hg2 => runsBy_ne_nil l g2 (by rw [hl]; exact List.mem_cons.mpr (Or.inr hg2)))
      (fun g2 hg2 => runsBy_uniform l g2 (by rw [hl]; exact List.mem_cons.mpr (Or.inr hg2)))
      (fun g2 hg2 => by
        obtain ⟨x, g2', rfl⟩ : ∃ x g2', g2 = x :: g2' := by
          cases g2 with
          | nil =>
            exact absurd rfl (runsBy_ne_nil l [] (by rw [hl]; exact List.mem_cons.mpr (Or.inr hg2)))
          | cons a b => exact ⟨a, b, rfl⟩
        exact hcust x (hmem_of_run (x :: g2') (by rw [hl]; exact List.mem_cons.mpr (Or.inr hg2))
          x (List.mem_cons_self _ _)))
      hch.tail hrne
      (fun g2 hg2 => by
        have := List.chain'_cons'.mp hch
        exact fun hh => (this.1 g2 hg2) (by simpa [headCustomer] using hh.symm))]
    have hbal : [r.balance] ++ List.map (fun x : AnnRow => x.balance) g' =
        List.map (fun x : AnnRow => x.balance) (r :: g') := by
      simp
    have hlen : seq + 1 + g'.length = seq + (r :: g').length := by
      simp only [List.length_cons]
      omega
    rw [hbal, hlen]
    cases gs with
    | nil =>
      simp only [renderRest, renderGroups, dataRows]
      simp [headCustomer, List.append_assoc]
    | cons g2 gs2 =>
      simp only [renderRest, renderGroups, dataRows]
      simp [headCustomer, List.append_assoc]

/-- C1: `calculate_status` is a pure function of `(due_date, reference_date)`.
A missing due date yields label "No Due Date" with no severity; otherwise,
with `days = due_date - reference_date` (an integer that may be negative),
`days < 0` yields `("Overdue", Overdue)`, `days = 0` yields
`("Due Today", DueSoon)`, `1 ≤ days ≤ 7` yields `("Due in N days", DueSoon)`,
`8 ≤ days ≤ 60` yields `("Due in N days", DueLater)` and `days > 60` yields
the label with no severity - for every date pair.  Severity tiers are the
code's highlight colours read through `severity_of_color`. -/
theorem claim_C1_aging_classifier (due : Option Int) (today : Int) :
    (calculate_status none today = ("No Due Date", none)) ∧
    (∀ dd : Int, due = some dd →
      (dd - today < 0 →
        calculate_status due today = ("Overdue", some "red") ∧
        severity_of_color (calculate_status due today).2 = some Severity.overdue) ∧
      (dd - today = 0 →
        calculate_status due today = ("Due Today", some "yellow") ∧
        severity_of_color (calculate_status due today).2 = some Severity.dueSoon) ∧
      (1 ≤ dd - today ∧ dd - today ≤ 7 →
        calculate_status due today =
          ("Due in " ++ toString (dd - today) ++ " days", some "yellow") ∧
        severity_of_color (calculate_status due today).2 = some Severity.dueSoon) ∧
      (8 ≤ dd - today ∧ dd - today ≤ 60 →
        calculate_status due today =
          ("Due in " ++ toString (dd - today) ++ " days", some "green") ∧
        severity_of_color (calculate_status due today).2 = some Severity.dueLater) ∧
      (60 < dd - today →
        calculate_status due today =
          ("Due in " ++ toString (dd - today) ++ " days", none) ∧
        severity_of_color (calculate_status due today).2 = none)) := by
  refine ⟨rfl, ?_⟩
  rintro dd rfl
  refine ⟨?_, ?_, ?_, ?_, ?_⟩
  · intro h
    have hc : calculate_status (some dd) today = ("Overdue", some "red") := by
      simp only [calculate_status]
      rw [if_pos h]
    exact ⟨hc, by rw [hc]; rfl⟩
  · intro h
    have hc : calculate_status (some dd) today = ("Due Today", some "yellow") := by
      simp only [calculate_status]
      rw [if_neg (by omega), if_pos (by omega), if_neg (by omega)]
    exact ⟨hc, by rw [hc]; rfl⟩
  · intro h
    have hc : calculate_status (some dd) today =
        ("Due in " ++ toString (dd - today) ++ " days", some "yellow") := by
      simp only [calculate_status]
      rw [if_neg (by omega), if_pos (by omega), if_pos (by omega)]
    exact ⟨hc, by rw [hc]; rfl⟩
  · intro h
    have hc : calculate_status (some dd) today =
        ("Due in " ++ toString (dd - today) ++ " days", some "green") := by
      simp only [calculate_status]
      rw [if_neg (by omega), if_neg (by omega), if_pos (by omega)]
    exact ⟨hc, by rw [hc]; rfl⟩
  · intro h
    have hc : calculate_status (some dd) today =
        ("Due in " ++ toString (dd - today) ++ " days", none) := by
      simp only [calculate_status]
      rw [if_neg (by omega), if_neg (by omega), if_neg (by omega)]
    exact ⟨hc, by rw [hc]; rfl⟩

/-- Witness for C1 at concrete dates: reference day 0, due dates missing,
-1, 0, 5, 30 and 100 exercise every branch of the classifier. -/
theorem claim_C1_witness :
    calculate_status none 0 = ("No Due Date", none) ∧
    calculate_status (some (-1)) 0 = ("Overdue", some "red") ∧
    calculate_status (some 0) 0 = ("Due Today", some "yellow") ∧
    calculate_status (some 5) 0 = ("Due in 5 days", some "yellow") ∧
    calculate_status (some 30) 0 = ("Due in 30 days", some "green") ∧
    calculate_status (some 100) 0 = ("Due in 100 days", none) := by
  refine ⟨(claim_C1_aging_classifier none 0).1, ?_, ?_, ?_, ?_, ?_⟩
  · exact (((claim_C1_aging_classifier (some (-1)) 0).2 (-1) rfl).1 (by norm_num)).1
  · exact (((claim_C1_aging_classifier (some 0) 0).2 0 rfl).2.1 (by norm_num)).1
  · have h := (((claim_C1_aging_classifier (some 5) 0).2 5 rfl).2.2.1 (by norm_num)).1
    rw [h]; decide
  · have h := (((claim_C1_aging_classifier (some 30) 0).2 30 rfl).2.2.2.1 (by norm_num)).1
    rw [h]; decide
  · have h := (((claim_C1_aging_classifier (some 100) 0).2 100 rfl).2.2.2.2 (by norm_num)).1
    rw [h]; decide

theorem grand_rows_append (a b : List OutRow) :
    grand_rows (a ++ b) = grand_rows a ++ grand_rows b :=
  List.filterMap_append a b _

theorem grand_rows_closeGroup (c : String) (bs : List (Option ℚ)) :
    grand_rows (closeGroup c bs) = [] := by
  unfold closeGroup
  split
  · rfl
  · rfl

theorem grand_rows_writeLoop (l : List AnnRow) (current : String)
    (balances : List (Option ℚ)) (seq : Nat) :
    grand_rows (writeLoop l current balances seq) = [] := by
  induction l generalizing current balances seq with
  | nil => simp only [writeLoop, grand_rows_closeGroup]
  | cons r rest ih =>
    simp only [writeLoop]
    split
    · rw [grand_rows_append, grand_rows_append, grand_rows_append,
        grand_rows_closeGroup, ih]
      rfl
    · rw [grand_rows_append, ih]
      rfl

/-- C2 (amended): for every currency section, the output is exactly the
maximal blocks of consecutive same-customer rows, each block's data rows
followed by a subtotal marker precisely when the block has two or more
rows (so the marker sits directly after the last row of its group,
including the final group), and the marker carries the block's customer
name and the Python `sum` of the block's balances - in which a null
balance propagates and makes the subtotal amount null (`NaN`), rather
than being excluded as the original claim states; the summation never
fails.  Customer names are non-empty, as the canonical data model
guarantees.  The trailing row is the single grand-total marker. -/
theorem claim_C2_subtotal_markers (rows : List AnnRow) (currency : String)
    (hcust : ∀ r ∈ rows, r.customer ≠ "") :
    write_to_excel rows currency =
      renderGroups 1 (runsBy rows) ++
        [.grandTotal currency (pdSum (rows.map (·.balance)))] ∧
    (runsBy rows).flatten = rows ∧
    (∀ g ∈ runsBy rows, g ≠ [] ∧ ∀ x ∈ g, x.customer = headCustomer g) ∧
    List.Chain' (fun a b => headCustomer a ≠ headCustomer b) (runsBy rows) := by
  refine ⟨?_, runsBy_flatten rows,
    fun g hg => ⟨runsBy_ne_nil rows g hg, runsBy_uniform rows g hg⟩,
    runsBy_chain' rows⟩
  unfold write_to_excel
  rw [writeLoop_fresh rows 1 hcust]

/-- Witness for C2 on a concrete two-invoice group. -/
theorem claim_C2_witness :
    write_to_excel [exRowA1, exRowA2] "USD" =
      renderGroups 1 (runsBy [exRowA1, exRowA2]) ++
        [.grandTotal "USD" (pdSum ([exRowA1, exRowA2].map (·.balance)))] :=
  (claim_C2_subtotal_markers [exRowA1, exRowA2] "USD" (by decide)).1

/-- Counterexample to C2 as stated: in the currency section holding the two
`Acme` rows with balances `NaN` and `5`, the code emits the subtotal marker
with amount `NaN` (Python's `sum` propagates the null balance), while the
claim says the marker carries the sum with null balances excluded, `5`. -/
theorem claim_C2_counterexample :
    write_to_excel [exRowA1, exRowA2] "USD" =
      [dataOf 1 exRowA1, dataOf 2 exRowA2, OutRow.subtotal "Acme" none,
        OutRow.grandTotal "USD" 5] ∧
    pdSum ([exRowA1, exRowA2].map (·.balance)) = 5 ∧
    (OutRow.subtotal "Acme" none ≠ OutRow.subtotal "Acme" (some 5)) := by
  have h5 : pdSum ([exRowA1, exRowA2].map (·.balance)) = 5 := by
    simp [pdSum, exRowA1, exRowA2]
  refine ⟨?_, h5, by simp⟩
  unfold write_to_excel
  rw [h5]
  simp only [writeLoop, closeGroup, pySum, exRowA1, exRowA2]
  norm_num

/-- C3: the single grand-total row of a currency section carries the sum of
the section's non-null balances (pandas `Series.sum` skips `NaN`), it is
the last appended row, and its value does not depend on how the rows are
split into customer groups: any regrouping of the same rows has the same
total of per-group null-excluded sums. -/
theorem claim_C3_grand_total (rows : List AnnRow) (currency : String)
    (gs : List (List AnnRow)) (hgs : gs.flatten = rows) :
    grand_rows (write_to_excel rows currency) =
      [(currency, (rows.filterMap (·.balance)).sum)] ∧
    (write_to_excel rows currency).getLast? =
      some (.grandTotal currency ((rows.filterMap (·.balance)).sum)) ∧
    (rows.filterMap (·.balance)).sum =
      (gs.map (fun g => (g.filterMap (·.balance)).sum)).sum := by
  have hpd : pdSum (rows.map (·.balance)) = (rows.filterMap (·.balance)).sum := by
    unfold pdSum
    rw [List.filterMap_map]
    rfl
  refine ⟨?_, ?_, ?_⟩
  · unfold write_to_excel
    rw [grand_rows_append, grand_rows_writeLoop, hpd]
    rfl
  · unfold write_to_excel
    rw [List.getLast?_concat, hpd]
  · subst hgs
    rw [List.filterMap_flatten, List.sum_flatten, List.map_map]
    rfl

/-- Witness for C3 on a concrete section and a concrete regrouping. -/
theorem claim_C3_witness :
    grand_rows (write_to_excel [exRowA1, exRowA2] "USD") =
      [("USD", ([exRowA1, exRowA2].filterMap (·.balance)).sum)] ∧
    ([exRowA1, exRowA2].filterMap (·.balance)).sum =
      ([[exRowA1], [exRowA2]].map (fun g => (g.filterMap (·.balance)).sum)).sum := by
  have h := claim_C3_grand_total [exRowA1, exRowA2] "USD" [[exRowA1], [exRowA2]] (by simp)
  exact ⟨h.1, h.2.2⟩

theorem mem_dedupFirst {c : String} : ∀ {l : List String}, c ∈ dedupFirst l ↔ c ∈ l := by
  intro l
  induction l with
  | nil => simp [dedupFirst]
  | cons a l ih =>
    by_cases hca : c = a
    · subst hca
      simp [dedupFirst]
    · simp [dedupFirst, List.mem_filter, hca, ih]

theorem nodup_dedupFirst (l : List String) : (dedupFirst l).Nodup := by
  induction l with
  | nil => simp [dedupFirst]
  | cons a l ih =>
    simp only [dedupFirst, List.nodup_cons]
    constructor
    · simp [List.mem_filter]
    · exact ih.filter _

theorem dedupFirst_filter (p : String → Bool) (l : List String) :
    dedupFirst (l.filter p) = (dedupFirst l).filter p := by
  induction l with
  | nil => rfl
  | cons a l ih =>
    cases hp : p a with
    | true =>
      rw [List.filter_cons_of_pos hp]
      simp only [dedupFirst]
      rw [ih, List.filter_cons_of_pos hp]
      congr 1
      rw [List.filter_filter, List.filter_filter]
      apply List.filter_congr
      intro x _
      rw [Bool.and_comm]
    | false =>
      rw [List.filter_cons_of_neg (by simp [hp])]
      rw [ih]
      simp only [dedupFirst]
      rw [List.filter_cons_of_neg (by simp [hp])]
      rw [List.filter_filter]
      apply (List.filter_congr ?_).symm
      intro x _
      by_cases hxa : x = a
      · subst hxa
        simp [hp]
      · simp [hxa]

theorem map_fst_filterMap {β γ : Type} (g : String → Option β) (h : String → β → γ)
    (l : List String) :
    (l.filterMap (fun c => (g c).map (fun x => (c, h c x)))).map Prod.fst
      = l.filter (fun c => (g c).isSome) := by
  induction l with
  | nil => rfl
  | cons c l ih =>
    cases hg : g c <;> simp [List.filterMap_cons, hg, ih]

theorem filter_currency_ne_nil_iff (df : List Record) (c : String) :
    df.filter (fun r => r.currency = c) ≠ [] ↔ ∃ r ∈ df, r.currency = c := by
  rw [ne_eq, List.filter_eq_nil_iff]
  push_neg
  simp

theorem process_isSome_iff (df : List Record) (c : String) (today : Int) :
    (process_currency_data df c today).isSome = true ↔ ∃ r ∈ df, r.currency = c := by
  rw [← filter_currency_ne_nil_iff]
  unfold process_currency_data
  split
  · simp [*]
  · simp [*]

theorem mem_other_currencies {df : List Record} {c : String} :
    c ∈ other_currencies df ↔
      (∃ r ∈ df, r.currency = c) ∧ ¬ (c = "USD" ∨ c = "EUR") := by
  unfold other_currencies
  rw [mem_dedupFirst, List.mem_map]
  constructor
  · rintro ⟨r, hr, rfl⟩
    rw [List.mem_filter] at hr
    refine ⟨⟨r, hr.1, rfl⟩, by simpa using hr.2⟩
  · rintro ⟨⟨r, hr, rfl⟩, hne⟩
    exact ⟨r, List.mem_filter.mpr ⟨hr, by simpa using hne⟩, rfl⟩

theorem nodup_section_order (df : List Record) : (section_order df).Nodup := by
  unfold section_order
  simp only [List.nodup_cons]
  refine ⟨?_, ?_, nodup_dedupFirst _⟩
  · intro hmem
    rcases List.mem_cons.mp hmem with h | h
    · exact absurd h (by decide)
    · exact (mem_other_currencies.mp h).2 (Or.inl rfl)
  · intro hmem
    exact (mem_other_currencies.mp hmem).2 (Or.inr rfl)

theorem mem_section_order {df : List Record} {c : String}
    (h : ∃ r ∈ df, r.currency = c) : c ∈ section_order df := by
  unfold section_order
  by_cases h1 : c = "USD"
  · simp [h1]
  · by_cases h2 : c = "EUR"
    · simp [h2]
    · simp only [List.mem_cons]
      exact Or.inr (Or.inr (mem_other_currencies.mpr ⟨h, by simp [h1, h2]⟩))

theorem filters_flatten_perm (cs : List String) (df : List Record)
    (hnd : cs.Nodup) (hcov : ∀ r ∈ df, r.currency ∈ cs) :
    (cs.map (fun c => df.filter (fun r => r.currency = c))).flatten.Perm df := by
  induction cs generalizing df with
  | nil =>
    cases df with
    | nil => simp
    | cons r df => exact absurd (hcov r (List.mem_cons_self r df)) (by simp)
  | cons c cs ih =>
    simp only [List.map_cons, List.flatten_cons]
    have hperm := List.filter_append_perm (fun r => decide (r.currency = c)) df
    have hc_not : c ∉ cs := (List.nodup_cons.mp hnd).1
    have hmap : cs.map (fun c' => df.filter (fun r => r.currency = c')) =
        cs.map (fun c' =>
          (df.filter (fun r => ! decide (r.currency = c))).filter
            (fun r => r.currency = c')) := by
      apply List.map_congr_left
      intro c' hc'
      rw [List.filter_filter]
      apply List.filter_congr
      intro r _
      have hcc : ¬ c' = c := fun hh => hc_not (hh ▸ hc')
      by_cases hrc : r.currency = c'
      · simp [hrc, hcc]
      · simp [hrc]
    rw [hmap]
    have hcov' : ∀ r ∈ df.filter (fun r => ! decide (r.currency = c)), r.currency ∈ cs := by
      intro r hr
      rw [List.mem_filter] at hr
      have := hcov r hr.1
      rcases List.mem_cons.mp this with h | h
      · exact absurd h (by simpa using hr.2)
      · exact h
    have hih := ih (df.filter (fun r => ! decide (r.currency = c)))
      (List.nodup_cons.mp hnd).2 hcov'
    exact (List.Perm.append_left _ hih).trans hperm

theorem toRecord_annotate (today : Int) (r : Record) :
    (annotate today r).toRecord = r := rfl

theorem partition_mem {df : List Record} {today : Int} {p : String × List AnnRow}
    (hp : p ∈ currency_partition df today) :
    df.filter (fun r => r.currency = p.1) ≠ [] ∧
    p.2 = (sortByCustomer (df.filter (fun r => r.currency = p.1))).map (annotate today) := by
  obtain ⟨c, rows⟩ := p
  unfold currency_partition at hp
  rw [List.mem_filterMap] at hp
  obtain ⟨c', _hc', hsome⟩ := hp
  cases hproc : process_currency_data df c' today with
  | none => rw [hproc] at hsome; exact absurd hsome (by simp)
  | some rows' =>
    rw [hproc] at hsome
    have h1 : c' = c ∧ rows' = rows := by simpa using hsome
    obtain ⟨rfl, rfl⟩ := h1
    unfold process_currency_data at hproc
    split at hproc
    · exact absurd hproc (by simp)
    · simp only [Option.some_inj] at hproc
      exact ⟨by assumption, hproc.symm⟩

theorem flatten_perm_of_pointwise (ps : List (String × List AnnRow))
    (f : String → List Record)
    (h : ∀ p ∈ ps, (p.2.map AnnRow.toRecord).Perm (f p.1)) :
    (ps.map (fun p => p.2.map AnnRow.toRecord)).flatten.Perm
      ((ps.map Prod.fst).map f).flatten := by
  induction ps with
  | nil => simp
  | cons p ps ih =>
    simp only [List.map_cons, List.flatten_cons]
    exact (h p (List.mem_cons_self p ps)).append
      (ih (fun q hq => h q (List.mem_cons.mpr (Or.inr hq))))

theorem map_toRecord_annotate (today : Int) (l : List Record) :
    (l.map (annotate today)).map AnnRow.toRecord = l := by
  rw [List.map_map]
  have hid : AnnRow.toRecord ∘ annotate today = id := funext (toRecord_annotate today)
  rw [hid, List.map_id]

theorem partition_subset_perm {df : List Record} {today : Int} {p : String × List AnnRow}
    (hp : p ∈ currency_partition df today) :
    (p.2.map AnnRow.toRecord).Perm (df.filter (fun r => r.currency = p.1)) := by
  obtain ⟨_, heq⟩ := partition_mem hp
  rw [heq, map_toRecord_annotate]
  unfold sortByCustomer
  exact List.mergeSort_perm _ _

theorem partition_keys (df : List Record) (today : Int) :
    (currency_partition df today).map Prod.fst =
      (section_order df).filter (fun c => (process_currency_data df c today).isSome) :=
  map_fst_filterMap (fun c => process_currency_data df c today) (fun _ rows => rows) _

theorem report_keys (df : List Record) (today : Int) :
    (report_sections df today).map Prod.fst =
      (section_order df).filter (fun c => (process_currency_data df c today).isSome) :=
  map_fst_filterMap (fun c => process_currency_data df c today)
    (fun c rows => write_to_excel rows c) _

theorem mem_present_keys {df : List Record} {today : Int} {c : String} :
    c ∈ (section_order df).filter (fun c => (process_currency_data df c today).isSome) ↔
      ∃ r ∈ df, r.currency = c := by
  rw [List.mem_filter]
  constructor
  · rintro ⟨_, hsome⟩
    exact (process_isSome_iff df c today).mp hsome
  · intro h
    exact ⟨mem_section_order h, (process_isSome_iff df c today).mpr h⟩

/-- C5: the currency partitioner yields, for every canonical record set,
one subset per distinct currency present (no currency is repeated or
invented, no present currency is skipped), each emitted subset is
non-empty and holds exactly the records of its currency (up to the
customer sort), and the subsets together are a permutation of the full
record set - no record duplicated or dropped. -/
theorem claim_C5_currency_partition (df : List Record) (today : Int) :
    ((currency_partition df today).map Prod.fst).Nodup ∧
    (∀ c : String,
      c ∈ (currency_partition df today).map Prod.fst ↔ ∃ r ∈ df, r.currency = c) ∧
    (∀ p ∈ currency_partition df today,
      p.2 ≠ [] ∧
      (∀ x ∈ p.2, x.currency = p.1) ∧
      (p.2.map AnnRow.toRecord).Perm (df.filter (fun r => r.currency = p.1))) ∧
    ((currency_partition df today).map (fun p => p.2.map AnnRow.toRecord)).flatten.Perm df := by
  refine ⟨?_, ?_, ?_, ?_⟩
  · rw [partition_keys]
    exact (nodup_section_order df).filter _
  · intro c
    rw [partition_keys]
    exact mem_present_keys
  · intro p hp
    obtain ⟨hne, heq⟩ := partition_mem hp
    refine ⟨?_, ?_, partition_subset_perm hp⟩
    · intro h0
      apply hne
      have hlen : p.2.length = (df.filter (fun r => r.currency = p.1)).length := by
        rw [heq, List.length_map]
        unfold sortByCustomer
        exact (List.mergeSort_perm _ _).length_eq
      rw [h0] at hlen
      exact List.length_eq_zero.mp hlen.symm
    · intro x hx
      rw [heq] at hx
      rw [List.mem_map] at hx
      obtain ⟨r, hr, rfl⟩ := hx
      have hr' : r ∈ df.filter (fun r => r.currency = p.1) := by
        unfold sortByCustomer at hr
        exact (List.mergeSort_perm _ _).mem_iff.mp hr
      have := (List.mem_filter.mp hr').2
      simpa [annotate] using this
  · refine (flatten_perm_of_pointwise _ (fun c => df.filter (fun r => r.currency = c))
      (fun p hp => partition_subset_perm hp)).trans ?_
    apply filters_flatten_perm
    · rw [partition_keys]
      exact (nodup_section_order df).filter _
    · intro r hr
      rw [partition_keys]
      exact mem_present_keys.mpr ⟨r, hr, rfl⟩

/-- Witness for C5 on a concrete two-currency record set. -/
theorem claim_C5_witness :
    ("USD", [annotate 0 exRecU]) ∈ currency_partition exDf 0 ∧
    ([annotate 0 exRecU] : List AnnRow) ≠ [] ∧
    (("USD" : String) ∈ (currency_partition exDf 0).map Prod.fst ↔
      ∃ r ∈ exDf, r.currency = "USD") := by
  have hU : process_currency_data exDf "USD" 0 = some [annotate 0 exRecU] := by
    simp [process_currency_data, exDf, exRecU, exRecG, sortByCustomer,
      List.mergeSort_singleton]
  have hmem : ("USD", [annotate 0 exRecU]) ∈ currency_partition exDf 0 := by
    simp [currency_partition, section_order, List.filterMap_cons, hU]
  exact ⟨hmem, ((claim_C5_currency_partition exDf 0).2.2.1 _ hmem).1,
    (claim_C5_currency_partition exDf 0).2.1 "USD"⟩

theorem other_currencies_eq (df : List Record) :
    other_currencies df =
      (dedupFirst (df.map (·.currency))).filter
        (fun c => ¬ (c = "USD" ∨ c = "EUR")) := by
  unfold other_currencies
  rw [← dedupFirst_filter]
  congr 1
  rw [List.filter_map]
  rfl

/-- C10: the worksheets of one report run come in a fixed order: a `USD`
sheet first when a USD record exists, then an `EUR` sheet when an EUR
record exists, then one sheet per remaining distinct currency in order of
first appearance in the record set; no currency is repeated, and a sheet
exists for a currency exactly when a record of that currency exists. -/
theorem claim_C10_sheet_order (df : List Record) :
    (report_sections df reference_today).map Prod.fst =
      (if ∃ r ∈ df, r.currency = "USD" then ["USD"] else []) ++
      (if ∃ r ∈ df, r.currency = "EUR" then ["EUR"] else []) ++
      ((dedupFirst (df.map (·.currency))).filter
        (fun c => ¬ (c = "USD" ∨ c = "EUR"))) ∧
    ((report_sections df reference_today).map Prod.fst).Nodup ∧
    (∀ c : String,
      c ∈ (report_sections df reference_today).map Prod.fst ↔ ∃ r ∈ df, r.currency = c) := by
  refine ⟨?_, ?_, ?_⟩
  · rw [report_keys]
    have hother : (other_currencies df).filter
        (fun c => (process_currency_data df c reference_today).isSome) =
        other_currencies df := by
      apply List.filter_eq_self.mpr
      intro c hc
      exact (process_isSome_iff df c reference_today).mpr (mem_other_currencies.mp hc).1
    unfold section_order
    rw [List.filter_cons, List.filter_cons, hother, other_currencies_eq]
    by_cases hu : ∃ r ∈ df, r.currency = "USD" <;>
      by_cases he : ∃ r ∈ df, r.currency = "EUR"
    · rw [if_pos ((process_isSome_iff df "USD" reference_today).mpr hu),
        if_pos ((process_isSome_iff df "EUR" reference_today).mpr he),
        if_pos hu, if_pos he]
      rfl
    · rw [if_pos ((process_isSome_iff df "USD" reference_today).mpr hu),
        if_neg (by simpa using
          fun hs => he ((process_isSome_iff df "EUR" reference_today).mp hs)),
        if_pos hu, if_neg he]
      rfl
    · rw [if_neg (by simpa using
          fun hs => hu ((process_isSome_iff df "USD" reference_today).mp hs)),
        if_pos ((process_isSome_iff df "EUR" reference_today).mpr he),
        if_neg hu, if_pos he]
      rfl
    · rw [if_neg (by simpa using
          fun hs => hu ((process_isSome_iff df "USD" reference_today).mp hs)),
        if_neg (by simpa using
          fun hs => he ((process_isSome_iff df "EUR" reference_today).mp hs)),
        if_neg hu, if_neg he]
      rfl
  · rw [report_keys]
    exact (nodup_section_order df).filter _
  · intro c
    rw [report_keys]
    exact mem_present_keys

/-- Witness for C10 on a concrete record set: a `GBP` sheet exists exactly
because a GBP record exists. -/
theorem claim_C10_witness :
    ("GBP" : String) ∈ (report_sections exDf reference_today).map Prod.fst :=
  ((claim_C10_sheet_order exDf).2.2 "GBP").mpr ⟨exRecG, by simp [exDf], rfl⟩

/-- C6 (amended): when the alternate schema is not fully present and at
least one canonical column is missing, `generate_report` prints a warning
naming exactly the missing canonical columns and returns without writing
any output file - but it raises no exception (the source defines no
`SchemaError`) and the process finishes with exit status 0, not with the
non-zero outcome the original claim asserts. -/
theorem claim_C6_schema_outcome (cols : List String)
    (hx : has_xero_columns cols = false) (hm : missing_columns cols ≠ []) :
    run_generate_report cols =
      { outputWritten := false, exitCode := 0,
        printedMissing := some (missing_columns cols) } ∧
    (∀ c : String, c ∈ missing_columns cols ↔ c ∈ required_columns ∧ ¬ c ∈ cols) := by
  constructor
  · unfold run_generate_report
    rw [if_neg (by simp [hx]), if_neg hm]
  · intro c
    unfold missing_columns
    rw [List.mem_filter]
    simp

/-- Witness for C6 on the concrete one-column header `["Customer"]`. -/
theorem claim_C6_witness :
    run_generate_report ["Customer"] =
      { outputWritten := false, exitCode := 0,
        printedMissing := some ["Invoice #", "Due Date", "Total", "Paid", "Currency"] } := by
  have h := (claim_C6_schema_outcome ["Customer"] (by decide) (by decide)).1
  rw [h]
  decide

/-- Counterexample to C6 as stated: on the concrete header `["Customer"]`
(alternate schema absent, five canonical columns missing) the run prints
the warning naming the missing columns and writes no output - but its
exit status is 0: there is no `SchemaError` (none is defined in the
source) and no non-zero outcome is surfaced. -/
theorem claim_C6_counterexample :
    (run_generate_report ["Customer"]).outputWritten = false ∧
    (run_generate_report ["Customer"]).printedMissing =
      some ["Invoice #", "Due Date", "Total", "Paid", "Currency"] ∧
    (run_generate_report ["Customer"]).exitCode = 0 := by decide

/-- C7 (amended): with the full alternate schema present, consolidation
produces exactly one record per distinct `Invoice #` value - no id
repeated, dropped or invented - and each kept field is the first NON-null
value observed among that invoice's input rows in input order (pandas
`GroupBy.first` skips nulls; a field stays null only when it is null on
every row of the group).  No field is summed. -/
theorem claim_C7_consolidation (rows : List RawRow) :
    ((consolidate rows).map (·.invoiceId)).Nodup ∧
    (∀ k : String,
      k ∈ (consolidate rows).map (·.invoiceId) ↔ k ∈ rows.map (·.invoiceId)) ∧
    (∀ rec ∈ consolidate rows,
      rec.customer =
        firstEntry ((rows.filter (fun r => r.invoiceId = rec.invoiceId)).map (·.customer)) ∧
      rec.dueDate =
        firstEntry ((rows.filter (fun r => r.invoiceId = rec.invoiceId)).map (·.dueDate)) ∧
      rec.total =
        firstEntry ((rows.filter (fun r => r.invoiceId = rec.invoiceId)).map (·.total)) ∧
      rec.paid =
        firstEntry ((rows.filter (fun r => r.invoiceId = rec.invoiceId)).map (·.paid)) ∧
      rec.currency =
        firstEntry ((rows.filter (fun r => r.invoiceId = rec.invoiceId)).map (·.currency))) := by
  have hkeys : (consolidate rows).map (·.invoiceId) = groupKeys rows := by
    unfold consolidate
    rw [List.map_map]
    exact List.map_id _
  refine ⟨?_, ?_, ?_⟩
  · rw [hkeys]
    unfold groupKeys
    exact ((List.mergeSort_perm _ _).nodup_iff).mpr (nodup_dedupFirst _)
  · intro k
    rw [hkeys]
    unfold groupKeys
    rw [(List.mergeSort_perm _ _).mem_iff, mem_dedupFirst]
  · intro rec hrec
    unfold consolidate at hrec
    rw [List.mem_map] at hrec
    obtain ⟨k, _hk, rfl⟩ := hrec
    exact ⟨rfl, rfl, rfl, rfl, rfl⟩

/-- Witness for C7 on a concrete one-row input. -/
theorem claim_C7_witness :
    (("INV9" : String) ∈ (consolidate [exRawSingle]).map (·.invoiceId)) ∧
    ((consolidate [exRawSingle]).map (·.invoiceId)).Nodup :=
  ⟨((claim_C7_consolidation [exRawSingle]).2.1 "INV9").mpr (by simp [exRawSingle]),
    (claim_C7_consolidation [exRawSingle]).1⟩

/-- Counterexample to C7 as stated: invoice `INV1` appears as two raw
line-item rows; the first observed `Total` value in input order is null,
but the consolidated record keeps `100` - `GroupBy.first` takes the first
NON-null value, not the first observed value. -/
theorem claim_C7_counterexample :
    ([exRawDup1, exRawDup2].map (·.total)).head? = some none ∧
    (consolidate [exRawDup1, exRawDup2]).map (·.total) = [some "100"] := by
  constructor
  · rfl
  · simp [consolidate, groupKeys, dedupFirst, exRawDup1, exRawDup2, firstEntry,
      List.mergeSort_singleton]

/-- C8: for every record, an unparsable or absent `Due Date` becomes null
rather than an error; `Total` and `Paid` are coerced to numbers with
unparsable cells becoming null; `Paid` is then defaulted to exactly `0`
whenever null - never left null, its type is plain `ℚ` - while `Total`
may remain null.  Stated for every parser pair, since
`pd.to_datetime`/`pd.to_numeric` with `errors='coerce'` promise exactly
cell-wise parse-or-null. -/
theorem claim_C8_field_coercion (parseDate : String → Option Int)
    (parseNum : String → Option ℚ) (r : RawRow) :
    (r.dueDate.bind parseDate = none → (coerce_row parseDate parseNum r).dueDate = none) ∧
    ((coerce_row parseDate parseNum r).dueDate = r.dueDate.bind parseDate) ∧
    ((coerce_row parseDate parseNum r).total = r.total.bind parseNum) ∧
    (r.paid.bind parseNum = none → (coerce_row parseDate parseNum r).paid = 0) ∧
    (∀ q : ℚ, r.paid.bind parseNum = some q → (coerce_row parseDate parseNum r).paid = q) := by
  refine ⟨?_, rfl, rfl, ?_, ?_⟩
  · intro h
    simp [coerce_row, h]
  · intro h
    simp [coerce_row, h]
  · intro q h
    simp [coerce_row, h]

/-- Witness for C8 on a concrete row with unparsable `Due Date` and
`Total` cells and an absent `Paid` cell. -/
theorem claim_C8_witness :
    (coerce_row (fun s => none) (fun s => none) exRawBad).dueDate = none ∧
    (coerce_row (fun s => none) (fun s => none) exRawBad).total = none ∧
    (coerce_row (fun s => none) (fun s => none) exRawBad).paid = 0 := by
  have h := claim_C8_field_coercion (fun s => none) (fun s => none) exRawBad
  exact ⟨h.1 rfl, h.2.2.1.trans rfl, h.2.2.2.1 rfl⟩

/-- C9 (amended): in `fin_overview` the reference date is the hard-coded
constant `datetime(2025, 11, 11)` of line 316 - it is not supplied
externally per invocation - and the pipeline never reads the wall clock,
so two runs on identical input produce identical sections (ordering and
aggregates) regardless of when they are invoked.  (`xero_invoice`, by
contrast, takes its reference date from the wall clock; see the
counterexample.) -/
theorem claim_C9_reference_date (t₁ t₂ : Int) (df : List Record) :
    generate_report_at t₁ df = generate_report_at t₂ df ∧
    generate_report_at t₁ df = report_sections df (days_from_civil 2025 11 11) :=
  ⟨rfl, rfl⟩

/-- Counterexample to C9 as stated: the repository's reference dates are
not an external per-invocation configuration value.  `xero_invoice` uses
wall-clock `datetime.now()`: two runs on the identical invoice (due on
day 1) started at wall-clock days 0 and 1 produce different labels.  And
`fin_overview`'s reference date is the hard-coded constant 2025-11-11. -/
theorem claim_C9_counterexample :
    xero_status_at 0 (some 1) = "Due in 1 day" ∧
    xero_status_at 1 (some 1) = "Due today" ∧
    xero_status_at 0 (some 1) ≠ xero_status_at 1 (some 1) ∧
    reference_today = days_from_civil 2025 11 11 :=
  ⟨by decide, by decide, by decide, rfl⟩
